import Mathlib

/-!
Verification of the EMUWII emulation core against its design specification.

The emulator's richest draft (`emuwiiv1.cpp`) supplies the address
translator, the bounds-checked big-endian memory unit, the interrupt
controller, the Starlet coprocessor mailbox protocol and the PowerPC-style
instruction executor.  The draft `wiiemu.cpp` (v0.4) supplies the variant
of the executor that implements the fatal unknown-opcode policy
(`running = false`).

Machine integers are modelled as `Nat` (with explicit `% 2^32` / `% 2^64`
where the C code wraps) and `Int` for the signed casts.  A C right shift
`x >> k` on an unsigned value is `x / 2^k`, a mask `x & 0xFF` is
`x % 256`, and an `|` of disjoint byte lanes is `+`.  The paired-single
floating registers hold two IEEE single-precision lanes in the source; no
claim depends on the float arithmetic, so the lane type `F` and its three
lane operations are parameters of the model.
-/

namespace Emuwiiv1

/-- `(24 + 64) * 1024 * 1024` bytes of emulated memory (88 MB), from
`emuwiiv1.cpp`. -/
def MEMORY_SIZE : Nat := (24 + 64) * 1024 * 1024

/-- `MEMORY_SIZE - 1`; note `MEMORY_SIZE` is not a power of two. -/
def MEM_MASK : Nat := MEMORY_SIZE - 1

def KERNEL_BASE_ADDR : Nat := 0x80000000
def INTERRUPT_TABLE_BASE : Nat := 0x80003000
def RAM_START : Nat := 0x80000000
def RAM_END : Nat := 0x81FFFFFF
def HARDWARE_REGS_START : Nat := 0xCC000000
def HARDWARE_REGS_END : Nat := 0xCC00FFFF
def STARLET_MEM_START : Nat := 0xCD000000
def STARLET_MEM_END : Nat := 0xCD00FFFF

/-- The flat byte buffer `uint8_t memory[MEMORY_SIZE]`, as a map from byte
offset to byte value; every value the emulator ever stores is `< 256`. -/
abbrev Mem := Nat → Nat

/-- Reinterpret the low 16 bits of a machine word as a signed `int16_t`. -/
def toInt16 (n : Nat) : Int :=
  if n % 2 ^ 16 < 2 ^ 15 then (n % 2 ^ 16 : Int) else (n % 2 ^ 16 : Int) - 2 ^ 16

/-- Reinterpret a 32-bit value as a signed `int32_t`. -/
def toInt32 (n : Nat) : Int :=
  if n % 2 ^ 32 < 2 ^ 31 then (n % 2 ^ 32 : Int) else (n % 2 ^ 32 : Int) - 2 ^ 32

/-- Conversion of a signed value to `uint32_t` (reduction mod `2^32`). -/
def toUInt32 (i : Int) : Nat := (i % (2 ^ 32 : Int)).toNat

/-- Arithmetic right shift of a signed value: floor division by `2^k`. -/
def sar (i : Int) (k : Nat) : Int := Int.fdiv i (2 ^ k)

/-- `translate_address` of `emuwiiv1.cpp`: RAM window, hardware-register
window, Starlet window, then the masking fallback. -/
def translate_address (virtual_addr : Nat) : Nat :=
  if RAM_START ≤ virtual_addr ∧ virtual_addr ≤ RAM_END then
    (virtual_addr - RAM_START) &&& MEM_MASK
  else if HARDWARE_REGS_START ≤ virtual_addr ∧ virtual_addr ≤ HARDWARE_REGS_END then
    (0x1000000 + (virtual_addr - HARDWARE_REGS_START)) &&& MEM_MASK
  else if STARLET_MEM_START ≤ virtual_addr ∧ virtual_addr ≤ STARLET_MEM_END then
    (0x1100000 + (virtual_addr - STARLET_MEM_START)) &&& MEM_MASK
  else
    virtual_addr &&& MEM_MASK

/-- `read_word` of `emuwiiv1.cpp`: translate, bounds-check, then assemble
four bytes big-endian.  A faulted read yields 0.  The `% 256` on each
fetched byte records that the C buffer holds `uint8_t` values. -/
def read_word (mem : Mem) (address : Nat) : Nat :=
  let physical_addr := translate_address address
  if physical_addr + 3 ≥ MEMORY_SIZE then 0
  else
    mem physical_addr % 256 * 2 ^ 24 +
    mem (physical_addr + 1) % 256 * 2 ^ 16 +
    mem (physical_addr + 2) % 256 * 2 ^ 8 +
    mem (physical_addr + 3) % 256

/-- `write_word` of `emuwiiv1.cpp`: translate, bounds-check, then store the
four big-endian bytes.  A faulted write is a no-op.  (The mirror into the
SDL presentation framebuffer touches only the separate `framebuffer` array,
never this buffer.) -/
def write_word (mem : Mem) (address value : Nat) : Mem :=
  let physical_addr := translate_address address
  if physical_addr + 3 ≥ MEMORY_SIZE then mem
  else fun x =>
    if x = physical_addr then value / 2 ^ 24 % 256
    else if x = physical_addr + 1 then value / 2 ^ 16 % 256
    else if x = physical_addr + 2 then value / 2 ^ 8 % 256
    else if x = physical_addr + 3 then value % 256
    else mem x

/-- The lane type of a paired-single floating register together with the
three lane-wise operations the executor uses.  In the source a lane is an
IEEE-754 `float`; the claims under verification never depend on the float
arithmetic, so the model is parametric in it. -/
structure FOps (F : Type) where
  fadd : F → F → F
  fsub : F → F → F
  fmul : F → F → F

/-- `CPUState` of `emuwiiv1.cpp`.  Register banks are maps from index to
value; the executor only ever indexes `gpr`/`fpr` with values `< 32` and
`spr` with values `< 1024`, exactly as the C arrays are sized. -/
structure CPUState (F : Type) where
  pc : Nat
  gpr : Nat → Nat
  fpr : Nat → F × F
  spr : Nat → Nat
  running : Bool
  interrupts_enabled : Bool
  kernel_mode : Bool
  cycle_count : Nat

/-- The interrupt vector table as `initialize_kernel` populates it: types
0..11 map to `INTERRUPT_TABLE_BASE + 0x10 * type`; other types are absent
from the `std::map`. -/
def interrupt_vectors (interrupt_type : Int) : Option Nat :=
  if 0 ≤ interrupt_type ∧ interrupt_type < 12 then
    some (INTERRUPT_TABLE_BASE + 0x10 * interrupt_type.toNat)
  else
    none

/-- `get_interrupt_vector`: the mapped handler address, or the default
handler `INTERRUPT_TABLE_BASE` when the type is not in the table. -/
def get_interrupt_vector (interrupt_type : Int) : Nat :=
  match interrupt_vectors interrupt_type with
  | some v => v
  | none => INTERRUPT_TABLE_BASE

/-- `trigger_interrupt` of `emuwiiv1.cpp`: a no-op while disarmed; while
armed it saves the pre-trigger pc in the link register `spr[8]`, jumps to
the vector, disarms interrupts and forces kernel mode. -/
def trigger_interrupt {F : Type} (interrupt_type : Int) (state : CPUState F) : CPUState F :=
  if state.interrupts_enabled then
    { state with
        spr := Function.update state.spr 8 state.pc
        pc := get_interrupt_vector interrupt_type
        interrupts_enabled := false
        kernel_mode := true }
  else
    state

/-- `execute_instruction` of `emuwiiv1.cpp`.  The cycle counter (a
`uint64_t`) is incremented before the dispatch; the result pairs the new
CPU state with the new memory (only STW writes memory). -/
def execute_instruction {F : Type} (ops : FOps F) (instruction : Nat)
    (state₀ : CPUState F) (mem : Mem) : CPUState F × Mem :=
  let opcode := instruction / 2 ^ 26 % 64
  let state := { state₀ with cycle_count := (state₀.cycle_count + 1) % 2 ^ 64 }
  if opcode = 0x18 then -- ADD
    let ra := instruction / 2 ^ 21 % 32
    let rb := instruction / 2 ^ 16 % 32
    let rd := instruction / 2 ^ 11 % 32
    ({ state with
        gpr := Function.update state.gpr rd ((state.gpr ra + state.gpr rb) % 2 ^ 32)
        pc := (state.pc + 4) % 2 ^ 32 }, mem)
  else if opcode = 0x19 then -- ADDI
    let ra := instruction / 2 ^ 21 % 32
    let rd := instruction / 2 ^ 16 % 32
    let imm := toInt16 instruction
    ({ state with
        gpr := Function.update state.gpr rd (toUInt32 ((state.gpr ra : Int) + imm))
        pc := (state.pc + 4) % 2 ^ 32 }, mem)
  else if opcode = 0x1C then -- ADDIS
    let ra := instruction / 2 ^ 21 % 32
    let rd := instruction / 2 ^ 16 % 32
    let imm := toInt16 instruction
    ({ state with
        gpr := Function.update state.gpr rd (toUInt32 ((state.gpr ra : Int) + imm * 2 ^ 16))
        pc := (state.pc + 4) % 2 ^ 32 }, mem)
  else if opcode = 0x1F then -- extended opcodes
    let xo := instruction / 2 % 1024
    if xo = 0x10A then -- SUB
      let ra := instruction / 2 ^ 21 % 32
      let rb := instruction / 2 ^ 16 % 32
      let rd := instruction / 2 ^ 11 % 32
      ({ state with
          gpr := Function.update state.gpr rd (toUInt32 ((state.gpr ra : Int) - state.gpr rb))
          pc := (state.pc + 4) % 2 ^ 32 }, mem)
    else if xo = 0x00A then -- CMP
      let ra := instruction / 2 ^ 21 % 32
      let rb := instruction / 2 ^ 16 % 32
      let crfd := instruction / 2 ^ 23 % 8
      let a := toInt32 (state.gpr ra)
      let b := toInt32 (state.gpr rb)
      let cr_val : Nat := if a < b then 0x8 else if a > b then 0x4 else 0x2
      ({ state with
          spr := Function.update state.spr 0
            ((state.spr 0 &&& (0xFFFFFFFF ^^^ (0xF <<< (28 - 4 * crfd)))) |||
              (cr_val <<< (28 - 4 * crfd)))
          pc := (state.pc + 4) % 2 ^ 32 }, mem)
    else -- unhandled extended opcode: logged, skipped
      ({ state with pc := (state.pc + 4) % 2 ^ 32 }, mem)
  else if opcode = 0x12 then -- Branch
    let raw_offset := instruction % 2 ^ 26
    -- `static_cast<int32_t>(raw_offset << 2) >> 2`
    let offset : Int := sar (toInt32 (raw_offset * 4 % 2 ^ 32)) 2
    let link := instruction % 2 ≠ 0
    let state :=
      if link then { state with spr := Function.update state.spr 8 ((state.pc + 4) % 2 ^ 32) }
      else state
    let absolute := instruction / 2 % 2 ≠ 0
    if absolute then
      ({ state with pc := toUInt32 offset &&& 0xFFFFFFFC }, mem)
    else
      ({ state with pc := toUInt32 ((state.pc : Int) + offset) }, mem)
  else if opcode = 0x10 then -- Branch Conditional
    let bo := instruction / 2 ^ 21 % 32
    let bi := instruction / 2 ^ 16 % 32
    let offset : Int := toInt16 (instruction &&& 0xFFFC)
    let link := instruction % 2 ≠ 0
    let state :=
      if link then { state with spr := Function.update state.spr 8 ((state.pc + 4) % 2 ^ 32) }
      else state
    let cr_field := bi / 4
    let cr_bit := bi % 4
    let cr := state.spr 0
    let condition := cr &&& (0x80000000 >>> (cr_field * 4 + cr_bit)) ≠ 0
    let branch_taken :=
      if bo &&& 0x4 ≠ 0 then true
      else if bo &&& 0x8 ≠ 0 then condition
      else ¬condition
    if branch_taken then
      ({ state with pc := toUInt32 ((state.pc : Int) + offset) }, mem)
    else
      ({ state with pc := (state.pc + 4) % 2 ^ 32 }, mem)
  else if opcode = 0x3C then -- PS_ADD
    let ra := instruction / 2 ^ 21 % 32
    let rb := instruction / 2 ^ 16 % 32
    let rd := instruction / 2 ^ 11 % 32
    ({ state with
        fpr := Function.update state.fpr rd
          (ops.fadd (state.fpr ra).1 (state.fpr rb).1, ops.fadd (state.fpr ra).2 (state.fpr rb).2)
        pc := (state.pc + 4) % 2 ^ 32 }, mem)
  else if opcode = 0x3D then -- PS_SUB
    let ra := instruction / 2 ^ 21 % 32
    let rb := instruction / 2 ^ 16 % 32
    let rd := instruction / 2 ^ 11 % 32
    ({ state with
        fpr := Function.update state.fpr rd
          (ops.fsub (state.fpr ra).1 (state.fpr rb).1, ops.fsub (state.fpr ra).2 (state.fpr rb).2)
        pc := (state.pc + 4) % 2 ^ 32 }, mem)
  else if opcode = 0x3E then -- PS_MUL
    let ra := instruction / 2 ^ 21 % 32
    let rb := instruction / 2 ^ 16 % 32
    let rd := instruction / 2 ^ 11 % 32
    ({ state with
        fpr := Function.update state.fpr rd
          (ops.fmul (state.fpr ra).1 (state.fpr rb).1, ops.fmul (state.fpr ra).2 (state.fpr rb).2)
        pc := (state.pc + 4) % 2 ^ 32 }, mem)
  else if opcode = 0x20 then -- LWZ
    let rs := instruction / 2 ^ 21 % 32
    let ra := instruction / 2 ^ 16 % 32
    let offset := toInt16 instruction
    let addr := if ra = 0 then toUInt32 offset else toUInt32 ((state.gpr ra : Int) + offset)
    ({ state with
        gpr := Function.update state.gpr rs (read_word mem addr)
        pc := (state.pc + 4) % 2 ^ 32 }, mem)
  else if opcode = 0x24 then -- STW
    let rs := instruction / 2 ^ 21 % 32
    let ra := instruction / 2 ^ 16 % 32
    let offset := toInt16 instruction
    let addr := if ra = 0 then toUInt32 offset else toUInt32 ((state.gpr ra : Int) + offset)
    ({ state with pc := (state.pc + 4) % 2 ^ 32 }, write_word mem addr (state.gpr rs))
  else if opcode = 0x0C then -- SYNC/ISYNC: no-op
    ({ state with pc := (state.pc + 4) % 2 ^ 32 }, mem)
  else if opcode = 0x13 then -- SC: system call trap
    (trigger_interrupt 9 state, mem)
  else if opcode = 0x11 then -- RFI
    ({ state with pc := state.spr 8, interrupts_enabled := true }, mem)
  else -- unknown opcode: logged, skipped
    ({ state with pc := (state.pc + 4) % 2 ^ 32 }, mem)

/-- `fetch_instruction`: read the word at the current pc. -/
def fetch_instruction {F : Type} (mem : Mem) (state : CPUState F) : Nat :=
  read_word mem state.pc

/-- One fetch-decode-execute step of the main loop. -/
def step {F : Type} (ops : FOps F) (mem : Mem) (state : CPUState F) : CPUState F × Mem :=
  execute_instruction ops (fetch_instruction mem state) state mem

/-- The Starlet coprocessor mailbox (`StarletMemory` in `emuwiiv1.cpp`). -/
structure StarletMemory where
  command : Nat
  response : Nat
  param_addr : Nat
  result_addr : Nat
  status : Nat

/-- The slice of `AudioState` the Starlet protocol touches: the external
audio presentation buffer, its size, and the initialized flag. -/
structure AudioState where
  buffer : Nat → Nat
  buffer_size : Nat
  initialized : Bool

/-- The block-transfer loop of Starlet commands 0x03/0x04:
`for (i = 0; i < size; i += 4) write_word(dest+i, read_word(src+i))`,
with the `uint32_t` address sums wrapping mod `2^32`. -/
def starlet_copy (mem : Mem) (src_addr dest_addr size i : Nat) : Mem :=
  if h : i < size then
    starlet_copy
      (write_word mem ((dest_addr + i) % 2 ^ 32) (read_word mem ((src_addr + i) % 2 ^ 32)))
      src_addr dest_addr size (i + 4)
  else mem
termination_by size - i
decreasing_by omega

/-- The byte-copy loop of Starlet command 0x05:
`for (i = 0; i < buffer_size; i++) audio.buffer[i] = memory[translate_address(buffer_addr+i)]`. -/
def starlet_audio_copy (mem : Mem) (buf : Nat → Nat) (buffer_addr buffer_size i : Nat) :
    Nat → Nat :=
  if h : i < buffer_size then
    starlet_audio_copy mem
      (Function.update buf i (mem (translate_address ((buffer_addr + i) % 2 ^ 32)) % 256))
      buffer_addr buffer_size (i + 1)
  else buf
termination_by buffer_size - i
decreasing_by omega

/-- Result of one Starlet mailbox poll: the new mailbox, audio state, CPU
state and memory, the list of interrupt types whose trigger was invoked
during the poll (in order), and the C function's boolean return. -/
structure StarletResult (F : Type) where
  sm : StarletMemory
  audio : AudioState
  cpu : CPUState F
  mem : Mem
  triggered : List Int
  handled : Bool

/-- `handle_starlet_command` of `emuwiiv1.cpp`: dispatch on the pending
command code, then in every handled-command branch set
`status = 1` (completed), reset `command` to 0 and invoke
`trigger_interrupt(1, state)` exactly once. -/
def handle_starlet_command {F : Type} (sm : StarletMemory) (audio : AudioState)
    (state : CPUState F) (mem : Mem) : StarletResult F :=
  if sm.command ≠ 0 then
    let (sm₁, audio₁, mem₁) :=
      if sm.command = 0x01 then -- Initialize: acknowledge
        ({ sm with response := 0x00 }, audio, mem)
      else if sm.command = 0x02 then -- Reset: acknowledge
        ({ sm with response := 0x00 }, audio, mem)
      else if sm.command = 0x03 then -- Read data: block transfer
        let src_addr := read_word mem sm.param_addr
        let dest_addr := read_word mem ((sm.param_addr + 4) % 2 ^ 32)
        let size := read_word mem ((sm.param_addr + 8) % 2 ^ 32)
        ({ sm with response := 0x00 }, audio, starlet_copy mem src_addr dest_addr size 0)
      else if sm.command = 0x04 then -- Write data: block transfer
        let src_addr := read_word mem sm.param_addr
        let dest_addr := read_word mem ((sm.param_addr + 4) % 2 ^ 32)
        let size := read_word mem ((sm.param_addr + 8) % 2 ^ 32)
        ({ sm with response := 0x00 }, audio, starlet_copy mem src_addr dest_addr size 0)
      else if sm.command = 0x05 then -- Update audio buffer
        let buffer_addr := read_word mem sm.param_addr
        let buffer_size := read_word mem ((sm.param_addr + 4) % 2 ^ 32)
        if audio.initialized = true ∧ buffer_size ≤ audio.buffer_size then
          ({ sm with response := 0x00 },
            { audio with buffer := starlet_audio_copy mem audio.buffer buffer_addr buffer_size 0 },
            mem)
        else
          ({ sm with response := 0x01 }, audio, mem)
      else -- unknown command
        ({ sm with response := 0xFF }, audio, mem)
    { sm := { sm₁ with status := 0x01, command := 0 }
      audio := audio₁
      cpu := trigger_interrupt 1 state
      mem := mem₁
      triggered := [1]
      handled := true }
  else
    { sm := sm, audio := audio, cpu := state, mem := mem, triggered := [], handled := false }

end Emuwiiv1

namespace Wiiemu

/-!
The v0.4 draft `wiiemu.cpp`: same 88 MB flat buffer but no address
translation (word access is bounds-checked on the virtual address
directly), no cycle counter, and the fatal unknown-opcode policy:
any opcode other than ADD (0x18), Branch (0x12) and PS_ADD (0x3C)
sets `running = false` and touches nothing else.
-/

def MEMORY_SIZE : Nat := (24 + 64) * 1024 * 1024

/-- `read_word` of `wiiemu.cpp`: direct bounds-checked big-endian read. -/
def read_word (mem : Emuwiiv1.Mem) (address : Nat) : Nat :=
  if address + 3 ≥ MEMORY_SIZE then 0
  else
    mem address % 256 * 2 ^ 24 +
    mem (address + 1) % 256 * 2 ^ 16 +
    mem (address + 2) % 256 * 2 ^ 8 +
    mem (address + 3) % 256

/-- `write_word` of `wiiemu.cpp`: direct bounds-checked big-endian write. -/
def write_word (mem : Emuwiiv1.Mem) (address value : Nat) : Emuwiiv1.Mem :=
  if address + 3 ≥ MEMORY_SIZE then mem
  else fun x =>
    if x = address then value / 2 ^ 24 % 256
    else if x = address + 1 then value / 2 ^ 16 % 256
    else if x = address + 2 then value / 2 ^ 8 % 256
    else if x = address + 3 then value % 256
    else mem x

/-- `CPUState` of `wiiemu.cpp` (no cycle counter). -/
structure CPUState (F : Type) where
  pc : Nat
  gpr : Nat → Nat
  fpr : Nat → F × F
  spr : Nat → Nat
  running : Bool
  interrupts_enabled : Bool
  kernel_mode : Bool

/-- `execute_instruction` of `wiiemu.cpp`.  The memory buffer is threaded
through explicitly; no branch of the source function writes it. -/
def execute_instruction {F : Type} (ops : Emuwiiv1.FOps F) (instruction : Nat)
    (state : CPUState F) (mem : Emuwiiv1.Mem) : CPUState F × Emuwiiv1.Mem :=
  let opcode := instruction / 2 ^ 26 % 64
  if opcode = 0x18 then -- ADD
    let ra := instruction / 2 ^ 21 % 32
    let rb := instruction / 2 ^ 16 % 32
    let rd := instruction / 2 ^ 11 % 32
    ({ state with
        gpr := Function.update state.gpr rd ((state.gpr ra + state.gpr rb) % 2 ^ 32)
        pc := (state.pc + 4) % 2 ^ 32 }, mem)
  else if opcode = 0x12 then -- Branch
    let raw_offset := instruction % 2 ^ 26
    let offset : Int := Emuwiiv1.sar (Emuwiiv1.toInt32 (raw_offset * 4 % 2 ^ 32)) 2
    ({ state with pc := Emuwiiv1.toUInt32 ((state.pc : Int) + offset) }, mem)
  else if opcode = 0x3C then -- PS_ADD
    let ra := instruction / 2 ^ 21 % 32
    let rb := instruction / 2 ^ 16 % 32
    let rd := instruction / 2 ^ 11 % 32
    ({ state with
        fpr := Function.update state.fpr rd
          (ops.fadd (state.fpr ra).1 (state.fpr rb).1, ops.fadd (state.fpr ra).2 (state.fpr rb).2)
        pc := (state.pc + 4) % 2 ^ 32 }, mem)
  else -- unhandled opcode: fatal policy
    ({ state with running := false }, mem)

/-- `fetch_instruction` of `wiiemu.cpp`. -/
def fetch_instruction {F : Type} (mem : Emuwiiv1.Mem) (state : CPUState F) : Nat :=
  read_word mem state.pc

/-- One fetch-decode-execute step of the `wiiemu.cpp` main loop. -/
def step {F : Type} (ops : Emuwiiv1.FOps F) (mem : Emuwiiv1.Mem) (state : CPUState F) :
    CPUState F × Emuwiiv1.Mem :=
  execute_instruction ops (fetch_instruction mem state) state mem

end Wiiemu


namespace Emuwiiv1

/-! Basic lemmas about the memory unit. -/

theorem read_word_lt (mem : Mem) (address : Nat) : read_word mem address < 2 ^ 32 := by
  simp only [read_word]
  split
  · omega
  · have h0 : mem (translate_address address) % 256 < 256 := Nat.mod_lt _ (by omega)
    have h1 : mem (translate_address address + 1) % 256 < 256 := Nat.mod_lt _ (by omega)
    have h2 : mem (translate_address address + 2) % 256 < 256 := Nat.mod_lt _ (by omega)
    have h3 : mem (translate_address address + 3) % 256 < 256 := Nat.mod_lt _ (by omega)
    omega

theorem write_word_frame (mem : Mem) (address value x : Nat)
    (hx : x < translate_address address ∨ translate_address address + 4 ≤ x) :
    write_word mem address value x = mem x := by
  unfold write_word
  split
  · rfl
  · have e1 : x ≠ translate_address address := by omega
    have e2 : x ≠ translate_address address + 1 := by omega
    have e3 : x ≠ translate_address address + 2 := by omega
    have e4 : x ≠ translate_address address + 3 := by omega
    simp only
    rw [if_neg e1, if_neg e2, if_neg e3, if_neg e4]

theorem write_word_bytes (mem : Mem) (address value : Nat)
    (h : translate_address address + 3 < MEMORY_SIZE) :
    write_word mem address value (translate_address address) = value / 2 ^ 24 % 256 ∧
    write_word mem address value (translate_address address + 1) = value / 2 ^ 16 % 256 ∧
    write_word mem address value (translate_address address + 2) = value / 2 ^ 8 % 256 ∧
    write_word mem address value (translate_address address + 3) = value % 256 := by
  unfold write_word
  rw [if_neg (by omega)]
  refine ⟨?_, ?_, ?_, ?_⟩
  · rw [if_pos rfl]
  · rw [if_neg (by omega), if_pos rfl]
  · rw [if_neg (by omega), if_neg (by omega), if_pos rfl]
  · rw [if_neg (by omega), if_neg (by omega), if_neg (by omega), if_pos rfl]

theorem read_word_eq_of_in_bounds (mem : Mem) (address : Nat)
    (h : translate_address address + 3 < MEMORY_SIZE) :
    read_word mem address =
      mem (translate_address address) % 256 * 2 ^ 24 +
      mem (translate_address address + 1) % 256 * 2 ^ 16 +
      mem (translate_address address + 2) % 256 * 2 ^ 8 +
      mem (translate_address address + 3) % 256 := by
  unfold read_word
  rw [if_neg (by omega)]

/-- Masking with `M < 2^n` only sees a number mod `2^n`. -/
theorem and_mask_congr {a b M n : Nat} (hM : M < 2 ^ n) (h : a % 2 ^ n = b % 2 ^ n) :
    a &&& M = b &&& M := by
  apply Nat.eq_of_testBit_eq
  intro i
  rw [Nat.testBit_and, Nat.testBit_and]
  by_cases hi : i < n
  · have ha : a.testBit i = (a % 2 ^ n).testBit i := by
      rw [Nat.testBit_mod_two_pow]; simp [hi]
    have hb : b.testBit i = (b % 2 ^ n).testBit i := by
      rw [Nat.testBit_mod_two_pow]; simp [hi]
    rw [ha, hb, h]
  · have hMi : M.testBit i = false :=
      Nat.testBit_lt_two_pow (lt_of_lt_of_le hM (Nat.pow_le_pow_right (by omega) (by omega)))
    simp [hMi]

/-- Round trip through the memory unit: any two virtual addresses with the
same translation observe the write of the other. -/
theorem read_write_of_translate_eq (mem : Mem) (a a' value : Nat)
    (h : translate_address a + 3 < MEMORY_SIZE)
    (h' : translate_address a' = translate_address a) :
    read_word (write_word mem a value) a' = value % 2 ^ 32 := by
  have hb := write_word_bytes mem a value h
  rw [read_word_eq_of_in_bounds _ _ (by rw [h']; exact h), h',
    hb.1, hb.2.1, hb.2.2.1, hb.2.2.2]
  omega

/-- C6: a word access whose physical offset fails the `offset + 3` bounds
check is a non-fatal MemoryFault: the read yields 0 and the write leaves
every byte of the buffer unchanged; neither touches any other emulator
state (`read_word`/`write_word` only consult and produce the buffer). -/
theorem memory_fault_read_zero_write_noop (mem : Mem) (address value : Nat)
    (h : MEMORY_SIZE ≤ translate_address address + 3) :
    read_word mem address = 0 ∧ write_word mem address value = mem := by
  refine ⟨?_, ?_⟩
  · simp only [read_word]
    rw [if_pos (by omega)]
  · simp only [write_word]
    rw [if_pos (by omega)]

theorem memory_fault_read_zero_write_noop_witness :
    MEMORY_SIZE ≤ translate_address 0x57FFFFF + 3 ∧
    read_word (fun _ => 0) 0x57FFFFF = 0 ∧
    write_word (fun _ => 0) 0x57FFFFF 5 = (fun _ => 0) :=
  ⟨by decide,
    (memory_fault_read_zero_write_noop (fun _ => 0) 0x57FFFFF 5 (by decide)).1,
    (memory_fault_read_zero_write_noop (fun _ => 0) 0x57FFFFF 5 (by decide)).2⟩

/-- C8: for every mapped (in-bounds) offset and every 32-bit value,
`write_word` followed by `read_word` at the same address returns exactly
the written value. -/
theorem write_read_roundtrip (mem : Mem) (a value : Nat)
    (hmapped : translate_address a + 3 < MEMORY_SIZE) (hv : value < 2 ^ 32) :
    read_word (write_word mem a value) a = value := by
  rw [read_write_of_translate_eq mem a a value hmapped rfl, Nat.mod_eq_of_lt hv]

theorem write_read_roundtrip_witness :
    translate_address 0x80000000 + 3 < MEMORY_SIZE ∧ (0xDEADBEEF : Nat) < 2 ^ 32 ∧
    read_word (write_word (fun _ => 0) 0x80000000 0xDEADBEEF) 0x80000000 = 0xDEADBEEF :=
  ⟨by decide, by decide,
    write_read_roundtrip (fun _ => 0) 0x80000000 0xDEADBEEF (by decide) (by decide)⟩

/-- C5: for every offset `x` within the 32 MB main-RAM window, the first
RAM window address `0x80000000 + x` and the second, aliased RAM window
address `0xC0000000 + x` translate to the same physical offset, and a word
written through either window is read back through the other. -/
theorem ram_windows_alias (x : Nat) (hx : x < 0x2000000) :
    translate_address (RAM_START + x) = translate_address (0xC0000000 + x) ∧
    ∀ (mem : Mem) (v : Nat), v < 2 ^ 32 →
      read_word (write_word mem (RAM_START + x) v) (0xC0000000 + x) = v ∧
      read_word (write_word mem (0xC0000000 + x) v) (RAM_START + x) = v := by
  have h1 : translate_address (RAM_START + x) = x &&& MEM_MASK := by
    simp only [translate_address, RAM_START, RAM_END]
    rw [if_pos (by omega), show 0x80000000 + x - 0x80000000 = x by omega]
  have h2 : translate_address (0xC0000000 + x) = (0xC0000000 + x) &&& MEM_MASK := by
    simp only [translate_address, RAM_START, RAM_END, HARDWARE_REGS_START, HARDWARE_REGS_END,
      STARLET_MEM_START, STARLET_MEM_END]
    rw [if_neg (by omega), if_neg (by omega), if_neg (by omega)]
  have h3 : (0xC0000000 + x) &&& MEM_MASK = x &&& MEM_MASK :=
    and_mask_congr (n := 27) (by norm_num [MEM_MASK, MEMORY_SIZE]) (by omega)
  have heq : translate_address (RAM_START + x) = translate_address (0xC0000000 + x) := by
    rw [h1, h2, h3]
  have hbound : translate_address (RAM_START + x) + 3 < MEMORY_SIZE := by
    have : x &&& MEM_MASK ≤ x := Nat.and_le_left
    have hM : MEMORY_SIZE = 0x5800000 := by norm_num [MEMORY_SIZE]
    omega
  refine ⟨heq, fun mem v hv => ⟨?_, ?_⟩⟩
  · rw [read_write_of_translate_eq mem (RAM_START + x) (0xC0000000 + x) v hbound heq.symm,
      Nat.mod_eq_of_lt hv]
  · rw [read_write_of_translate_eq mem (0xC0000000 + x) (RAM_START + x) v (heq ▸ hbound) heq,
      Nat.mod_eq_of_lt hv]

/-- Lane operations instantiated at the trivial lane type, for concrete
witness states (no verified claim depends on the float arithmetic). -/
def unitOps : FOps Unit := ⟨fun _ _ => (), fun _ _ => (), fun _ _ => ()⟩

/-- The freshly constructed `CPUState` (all registers zero, `running`,
kernel mode, interrupts disabled), with the trivial lane type. -/
def zeroState : CPUState Unit :=
  { pc := 0
    gpr := fun _ => 0
    fpr := fun _ => ((), ())
    spr := fun _ => 0
    running := true
    interrupts_enabled := false
    kernel_mode := true
    cycle_count := 0 }

/-- C1: executing an ADD word (primary opcode 0x18) sets `gpr[rd]` to
`(gpr[ra] + gpr[rb]) mod 2^32` for the register fields
`ra = bits 21..25`, `rb = bits 16..20`, `rd = bits 11..15`, advances the
pc by exactly 4, increments the cycle counter by exactly 1, and leaves
memory unchanged. -/
theorem add_sets_rd_advances_pc_counts_cycle {F : Type} (ops : FOps F) (instruction : Nat)
    (s : CPUState F) (mem : Mem)
    (hop : instruction / 2 ^ 26 % 64 = 0x18)
    (hpc : s.pc + 4 < 2 ^ 32) (hcyc : s.cycle_count + 1 < 2 ^ 64) :
    (execute_instruction ops instruction s mem).1.gpr (instruction / 2 ^ 11 % 32) =
      (s.gpr (instruction / 2 ^ 21 % 32) + s.gpr (instruction / 2 ^ 16 % 32)) % 2 ^ 32 ∧
    (execute_instruction ops instruction s mem).1.pc = s.pc + 4 ∧
    (execute_instruction ops instruction s mem).1.cycle_count = s.cycle_count + 1 ∧
    (execute_instruction ops instruction s mem).2 = mem := by
  simp only [execute_instruction]
  rw [if_pos hop]
  refine ⟨Function.update_same _ _ _, ?_, ?_, rfl⟩
  · exact Nat.mod_eq_of_lt hpc
  · exact Nat.mod_eq_of_lt hcyc

/-- The fresh state with the pc at the fixed entry point, as `main` sets
it before the run loop. -/
def zeroStateAtEntry : CPUState Unit := { zeroState with pc := KERNEL_BASE_ADDR }

/-- The boot image of the C1 scenario: the word `0x60221800`
(ADD rd=3, ra=1, rb=2) stored big-endian at physical offset 0, which is
where the entry point `0x80000000` translates. -/
def addScenarioMem : Mem := fun x =>
  if x = 0 then 0x60 else if x = 1 then 0x22 else if x = 2 then 0x18 else 0

/-- The C1 scenario register file: `gpr[1] = 5`, `gpr[2] = 7`, pc at the
entry point. -/
def addScenarioState : CPUState Unit :=
  { zeroState with pc := KERNEL_BASE_ADDR, gpr := fun i => if i = 1 then 5 else if i = 2 then 7 else 0 }

theorem add_sets_rd_advances_pc_counts_cycle_witness :
    fetch_instruction addScenarioMem addScenarioState = 0x60221800 ∧
    (step unitOps addScenarioMem addScenarioState).1.gpr 3 = 12 ∧
    (step unitOps addScenarioMem addScenarioState).1.pc = 0x80000004 ∧
    (step unitOps addScenarioMem addScenarioState).1.cycle_count = 1 := by
  have hf : fetch_instruction addScenarioMem addScenarioState = 0x60221800 := by decide
  have h := add_sets_rd_advances_pc_counts_cycle unitOps 0x60221800 addScenarioState
    addScenarioMem (by decide) (by decide) (by decide)
  refine ⟨hf, ?_, ?_, ?_⟩
  · have h1 := h.1
    simp only [show (0x60221800 : Nat) / 2 ^ 11 % 32 = 3 by decide,
      show (0x60221800 : Nat) / 2 ^ 21 % 32 = 1 by decide,
      show (0x60221800 : Nat) / 2 ^ 16 % 32 = 2 by decide] at h1
    simp only [step]
    rw [hf, h1]
    decide
  · simp only [step]
    rw [hf, h.2.1]
    decide
  · simp only [step]
    rw [hf, h.2.2.1]
    decide

/-- Characterization of the LWZ branch of the dispatcher. -/
theorem execute_lwz_eq {F : Type} (ops : FOps F) (instruction : Nat) (s : CPUState F)
    (mem : Mem) (hop : instruction / 2 ^ 26 % 64 = 0x20) :
    execute_instruction ops instruction s mem =
      ({ s with
          cycle_count := (s.cycle_count + 1) % 2 ^ 64
          gpr := Function.update s.gpr (instruction / 2 ^ 21 % 32)
            (read_word mem
              (if instruction / 2 ^ 16 % 32 = 0 then toUInt32 (toInt16 instruction)
               else toUInt32 ((s.gpr (instruction / 2 ^ 16 % 32) : Int) + toInt16 instruction)))
          pc := (s.pc + 4) % 2 ^ 32 }, mem) := by
  simp only [execute_instruction, hop]
  norm_num

/-- Characterization of the STW branch of the dispatcher. -/
theorem execute_stw_eq {F : Type} (ops : FOps F) (instruction : Nat) (s : CPUState F)
    (mem : Mem) (hop : instruction / 2 ^ 26 % 64 = 0x24) :
    execute_instruction ops instruction s mem =
      ({ s with
          cycle_count := (s.cycle_count + 1) % 2 ^ 64
          pc := (s.pc + 4) % 2 ^ 32 },
        write_word mem
          (if instruction / 2 ^ 16 % 32 = 0 then toUInt32 (toInt16 instruction)
           else toUInt32 ((s.gpr (instruction / 2 ^ 16 % 32) : Int) + toInt16 instruction))
          (s.gpr (instruction / 2 ^ 21 % 32))) := by
  simp only [execute_instruction, hop]
  norm_num

/-- C10: for LWZ (0x20) and STW (0x24) with base-register field `ra = 0`
the effective address is the sign-extended 16-bit offset alone — replacing
the value of `gpr[0]` never changes the access — while with `ra ≠ 0` it is
`gpr[ra]` plus the sign-extended offset (wrapped to 32 bits); and `gpr[0]`
stays an ordinary writable destination elsewhere, e.g. an ADD with
`rd = 0` stores its sum into `gpr[0]`. -/
theorem load_store_base_register_zero {F : Type} (ops : FOps F) (instruction : Nat)
    (s : CPUState F) (mem : Mem) :
    (instruction / 2 ^ 26 % 64 = 0x20 → instruction / 2 ^ 16 % 32 = 0 →
      (execute_instruction ops instruction s mem).1.gpr (instruction / 2 ^ 21 % 32) =
        read_word mem (toUInt32 (toInt16 instruction)) ∧
      ∀ w : Nat,
        (execute_instruction ops instruction { s with gpr := Function.update s.gpr 0 w } mem).1.gpr
            (instruction / 2 ^ 21 % 32) =
          read_word mem (toUInt32 (toInt16 instruction))) ∧
    (instruction / 2 ^ 26 % 64 = 0x20 → instruction / 2 ^ 16 % 32 ≠ 0 →
      (execute_instruction ops instruction s mem).1.gpr (instruction / 2 ^ 21 % 32) =
        read_word mem (toUInt32 ((s.gpr (instruction / 2 ^ 16 % 32) : Int) + toInt16 instruction))) ∧
    (instruction / 2 ^ 26 % 64 = 0x24 → instruction / 2 ^ 16 % 32 = 0 →
      (execute_instruction ops instruction s mem).2 =
        write_word mem (toUInt32 (toInt16 instruction)) (s.gpr (instruction / 2 ^ 21 % 32)) ∧
      ∀ w : Nat,
        (execute_instruction ops instruction { s with gpr := Function.update s.gpr 0 w } mem).2 =
          write_word mem (toUInt32 (toInt16 instruction))
            (Function.update s.gpr 0 w (instruction / 2 ^ 21 % 32))) ∧
    (instruction / 2 ^ 26 % 64 = 0x24 → instruction / 2 ^ 16 % 32 ≠ 0 →
      (execute_instruction ops instruction s mem).2 =
        write_word mem (toUInt32 ((s.gpr (instruction / 2 ^ 16 % 32) : Int) + toInt16 instruction))
          (s.gpr (instruction / 2 ^ 21 % 32))) ∧
    (instruction / 2 ^ 26 % 64 = 0x18 → instruction / 2 ^ 11 % 32 = 0 →
      (execute_instruction ops instruction s mem).1.gpr 0 =
        (s.gpr (instruction / 2 ^ 21 % 32) + s.gpr (instruction / 2 ^ 16 % 32)) % 2 ^ 32) := by
  refine ⟨fun hop hra => ⟨?_, fun w => ?_⟩, fun hop hra => ?_,
    fun hop hra => ⟨?_, fun w => ?_⟩, fun hop hra => ?_, fun hop hrd => ?_⟩
  · rw [execute_lwz_eq _ _ _ _ hop, if_pos hra]
    exact Function.update_same _ _ _
  · rw [execute_lwz_eq _ _ _ _ hop, if_pos hra]
    exact Function.update_same _ _ _
  · rw [execute_lwz_eq _ _ _ _ hop, if_neg hra]
    exact Function.update_same _ _ _
  · rw [execute_stw_eq _ _ _ _ hop, if_pos hra]
  · rw [execute_stw_eq _ _ _ _ hop, if_pos hra]
  · rw [execute_stw_eq _ _ _ _ hop, if_neg hra]
  · simp only [execute_instruction]
    rw [if_pos hop, hrd]
    show Function.update s.gpr 0
        ((s.gpr (instruction / 2 ^ 21 % 32) + s.gpr (instruction / 2 ^ 16 % 32)) % 2 ^ 32) 0 =
      (s.gpr (instruction / 2 ^ 21 % 32) + s.gpr (instruction / 2 ^ 16 % 32)) % 2 ^ 32
    exact Function.update_same _ _ _

theorem load_store_base_register_zero_witness :
    (0x80200100 : Nat) / 2 ^ 26 % 64 = 0x20 ∧ (0x80200100 : Nat) / 2 ^ 16 % 32 = 0 ∧
    ∀ w : Nat,
      (execute_instruction unitOps 0x80200100
          { zeroStateAtEntry with gpr := Function.update zeroStateAtEntry.gpr 0 w }
          (fun _ => 0)).1.gpr 1 =
        read_word (fun _ => 0) (toUInt32 (toInt16 0x80200100)) :=
  ⟨by decide, by decide,
    fun w =>
      ((load_store_base_register_zero unitOps 0x80200100 zeroStateAtEntry
          (fun _ => 0)).1 (by decide) (by decide)).2 w⟩

/-- C7: triggering any interrupt type while armed saves the pre-trigger pc
in the link register `spr[8]`, jumps to the mapped vector
(`INTERRUPT_TABLE_BASE + 0x10 * type` for types 0..11) or to the default
base vector for unmapped types, disarms interrupts and forces kernel
mode. -/
theorem trigger_interrupt_armed {F : Type} (interrupt_type : Int) (s : CPUState F)
    (hen : s.interrupts_enabled = true) :
    (trigger_interrupt interrupt_type s).spr 8 = s.pc ∧
    (trigger_interrupt interrupt_type s).pc = get_interrupt_vector interrupt_type ∧
    (0 ≤ interrupt_type ∧ interrupt_type < 12 →
      (trigger_interrupt interrupt_type s).pc =
        INTERRUPT_TABLE_BASE + 0x10 * interrupt_type.toNat) ∧
    (¬(0 ≤ interrupt_type ∧ interrupt_type < 12) →
      (trigger_interrupt interrupt_type s).pc = INTERRUPT_TABLE_BASE) ∧
    (trigger_interrupt interrupt_type s).interrupts_enabled = false ∧
    (trigger_interrupt interrupt_type s).kernel_mode = true := by
  have ht : trigger_interrupt interrupt_type s =
      { s with
          spr := Function.update s.spr 8 s.pc
          pc := get_interrupt_vector interrupt_type
          interrupts_enabled := false
          kernel_mode := true } := by
    simp only [trigger_interrupt, hen, if_true]
  rw [ht]
  refine ⟨show Function.update s.spr 8 s.pc 8 = s.pc from Function.update_same _ _ _,
    rfl, ?_, ?_, rfl, rfl⟩
  · intro hmapped
    simp only [get_interrupt_vector, interrupt_vectors, if_pos hmapped]
  · intro hunmapped
    simp only [get_interrupt_vector, interrupt_vectors, if_neg hunmapped]

theorem trigger_interrupt_armed_witness :
    ({ zeroState with pc := 0x80001234, interrupts_enabled := true } : CPUState Unit).interrupts_enabled = true ∧
    (trigger_interrupt 4 { zeroState with pc := 0x80001234, interrupts_enabled := true }).spr 8 = 0x80001234 ∧
    (trigger_interrupt 4 { zeroState with pc := 0x80001234, interrupts_enabled := true }).pc = 0x80003040 := by
  have h := trigger_interrupt_armed 4
    ({ zeroState with pc := 0x80001234, interrupts_enabled := true } : CPUState Unit) rfl
  refine ⟨rfl, h.1, ?_⟩
  rw [h.2.2.1 (by decide)]
  decide

/-- C9: one fetch-decode-execute step whose fetched word is a system call
(primary opcode 0x13) while interrupts are disabled increments the cycle
counter and changes nothing else: pc, all integer, floating and special
registers, all flags and memory are untouched, so the next fetch returns
the same system-call word. -/
theorem sc_while_disarmed_only_counts_cycle {F : Type} (ops : FOps F) (mem : Mem)
    (s : CPUState F)
    (hdis : s.interrupts_enabled = false)
    (hop : read_word mem s.pc / 2 ^ 26 % 64 = 0x13)
    (hcyc : s.cycle_count + 1 < 2 ^ 64) :
    (step ops mem s).1.pc = s.pc ∧
    (step ops mem s).1.gpr = s.gpr ∧
    (step ops mem s).1.fpr = s.fpr ∧
    (step ops mem s).1.spr = s.spr ∧
    (step ops mem s).1.running = s.running ∧
    (step ops mem s).1.interrupts_enabled = false ∧
    (step ops mem s).1.kernel_mode = s.kernel_mode ∧
    (step ops mem s).1.cycle_count = s.cycle_count + 1 ∧
    (step ops mem s).2 = mem ∧
    fetch_instruction (step ops mem s).2 (step ops mem s).1 = fetch_instruction mem s := by
  have hstep : step ops mem s =
      ({ s with cycle_count := (s.cycle_count + 1) % 2 ^ 64 }, mem) := by
    simp only [step, fetch_instruction, execute_instruction, hop]
    norm_num [trigger_interrupt, hdis]
  rw [hstep]
  refine ⟨rfl, rfl, rfl, rfl, rfl, hdis, rfl, Nat.mod_eq_of_lt hcyc, rfl, rfl⟩

theorem sc_while_disarmed_only_counts_cycle_witness :
    read_word (fun _ => 0x4C) 0x80000000 / 2 ^ 26 % 64 = 0x13 ∧
    (step unitOps (fun _ => 0x4C) zeroStateAtEntry).1.pc = 0x80000000 ∧
    (step unitOps (fun _ => 0x4C) zeroStateAtEntry).1.cycle_count = 1 := by
  have h := sc_while_disarmed_only_counts_cycle unitOps (fun _ => 0x4C) zeroStateAtEntry
    rfl (by decide) (by decide)
  exact ⟨by decide, h.1, h.2.2.2.2.2.2.2.1⟩

theorem ram_windows_alias_witness :
    (0x123456 : Nat) < 0x2000000 ∧
    read_word (write_word (fun _ => 0) (RAM_START + 0x123456) 0xCAFEBABE)
      (0xC0000000 + 0x123456) = 0xCAFEBABE :=
  ⟨by decide,
    ((ram_windows_alias 0x123456 (by decide)).2 (fun _ => 0) 0xCAFEBABE (by decide)).1⟩

/-! The Starlet block transfer, `starlet_copy`, one iteration at a time. -/

theorem starlet_copy_step (mem : Mem) (src_addr dest_addr size i : Nat) (h : i < size) :
    starlet_copy mem src_addr dest_addr size i =
      starlet_copy
        (write_word mem ((dest_addr + i) % 2 ^ 32) (read_word mem ((src_addr + i) % 2 ^ 32)))
        src_addr dest_addr size (i + 4) := by
  rw [starlet_copy]
  rw [dif_pos h]

theorem starlet_copy_stop (mem : Mem) (src_addr dest_addr size i : Nat) (h : ¬i < size) :
    starlet_copy mem src_addr dest_addr size i = mem := by
  rw [starlet_copy]
  rw [dif_neg h]

/-- A word fetched with `read_word` at one address and stored with
`write_word` at another lands byte for byte: effect on the four
destination bytes and on everything else. -/
theorem write_read_word_byte (m msrc : Mem) (a a' : Nat)
    (ha : translate_address a + 3 < MEMORY_SIZE)
    (ha' : translate_address a' + 3 < MEMORY_SIZE) (j : Nat) (hj : j < 4) :
    write_word m a (read_word msrc a') (translate_address a + j) =
      msrc (translate_address a' + j) % 256 := by
  have hb := write_word_bytes m a (read_word msrc a') ha
  have hr := read_word_eq_of_in_bounds msrc a' ha'
  have h0 : msrc (translate_address a') % 256 < 256 := Nat.mod_lt _ (by omega)
  have h1 : msrc (translate_address a' + 1) % 256 < 256 := Nat.mod_lt _ (by omega)
  have h2 : msrc (translate_address a' + 2) % 256 < 256 := Nat.mod_lt _ (by omega)
  have h3 : msrc (translate_address a' + 3) % 256 < 256 := Nat.mod_lt _ (by omega)
  interval_cases j
  · rw [show translate_address a + 0 = translate_address a from by omega, hb.1, hr]
    rw [show translate_address a' + 0 = translate_address a' from by omega]
    omega
  · rw [hb.2.1, hr]
    omega
  · rw [hb.2.2.1, hr]
    omega
  · rw [hb.2.2.2, hr]
    omega

/-- Effect of one block-transfer iteration, stated against the translated
base offsets of its source and destination words. -/
theorem copy_iter_bytes (m : Mem) (saddr daddr bs bd : Nat)
    (hts : translate_address saddr = bs) (htd : translate_address daddr = bd)
    (hsin : bs + 3 < MEMORY_SIZE) (hdin : bd + 3 < MEMORY_SIZE) :
    (∀ j, j < 4 → write_word m daddr (read_word m saddr) (bd + j) = m (bs + j) % 256) ∧
    (∀ x, x < bd ∨ bd + 4 ≤ x → write_word m daddr (read_word m saddr) x = m x) := by
  subst hts htd
  exact ⟨fun j hj => write_read_word_byte m m daddr saddr hdin hsin j hj,
    fun x hx => write_word_frame m daddr _ x hx⟩

/-- A block transfer with byte count 16 moves exactly the 16 source bytes
to the 16 destination bytes and leaves every other byte alone, provided
the two translated 16-byte windows are contiguous, in bounds and
disjoint. -/
theorem starlet_copy16_bytes (mem : Mem) (src dest : Nat)
    (hsrc32 : src < 2 ^ 32) (hdest32 : dest < 2 ^ 32)
    (hs4 : translate_address ((src + 4) % 2 ^ 32) = translate_address src + 4)
    (hs8 : translate_address ((src + 8) % 2 ^ 32) = translate_address src + 8)
    (hs12 : translate_address ((src + 12) % 2 ^ 32) = translate_address src + 12)
    (hd4 : translate_address ((dest + 4) % 2 ^ 32) = translate_address dest + 4)
    (hd8 : translate_address ((dest + 8) % 2 ^ 32) = translate_address dest + 8)
    (hd12 : translate_address ((dest + 12) % 2 ^ 32) = translate_address dest + 12)
    (hsin : translate_address src + 15 < MEMORY_SIZE)
    (hdin : translate_address dest + 15 < MEMORY_SIZE)
    (hdisj : translate_address src + 16 ≤ translate_address dest ∨
      translate_address dest + 16 ≤ translate_address src) :
    (∀ j, j < 16 → starlet_copy mem src dest 16 0 (translate_address dest + j) =
      mem (translate_address src + j) % 256) ∧
    (∀ x, x < translate_address dest ∨ translate_address dest + 16 ≤ x →
      starlet_copy mem src dest 16 0 x = mem x) := by
  have hts0 : translate_address ((src + 0) % 2 ^ 32) = translate_address src := by
    congr 1
    omega
  have htd0 : translate_address ((dest + 0) % 2 ^ 32) = translate_address dest := by
    congr 1
    omega
  rw [starlet_copy_step _ _ _ _ _ (by omega), starlet_copy_step _ _ _ _ _ (by omega),
    starlet_copy_step _ _ _ _ _ (by omega), starlet_copy_step _ _ _ _ _ (by omega),
    starlet_copy_stop _ _ _ _ _ (by omega)]
  generalize hM1 :
    write_word mem ((dest + 0) % 2 ^ 32) (read_word mem ((src + 0) % 2 ^ 32)) = M1
  have t1 := copy_iter_bytes mem ((src + 0) % 2 ^ 32) ((dest + 0) % 2 ^ 32)
    (translate_address src) (translate_address dest) hts0 htd0 (by omega) (by omega)
  rw [hM1] at t1
  generalize hM2 :
    write_word M1 ((dest + (0 + 4)) % 2 ^ 32) (read_word M1 ((src + (0 + 4)) % 2 ^ 32)) = M2
  have t2 := copy_iter_bytes M1 ((src + (0 + 4)) % 2 ^ 32) ((dest + (0 + 4)) % 2 ^ 32)
    (translate_address src + 4) (translate_address dest + 4) hs4 hd4 (by omega) (by omega)
  rw [hM2] at t2
  generalize hM3 :
    write_word M2 ((dest + (0 + 4 + 4)) % 2 ^ 32) (read_word M2 ((src + (0 + 4 + 4)) % 2 ^ 32)) = M3
  have t3 := copy_iter_bytes M2 ((src + (0 + 4 + 4)) % 2 ^ 32) ((dest + (0 + 4 + 4)) % 2 ^ 32)
    (translate_address src + 8) (translate_address dest + 8) hs8 hd8 (by omega) (by omega)
  rw [hM3] at t3
  generalize hM4 :
    write_word M3 ((dest + (0 + 4 + 4 + 4)) % 2 ^ 32)
      (read_word M3 ((src + (0 + 4 + 4 + 4)) % 2 ^ 32)) = M4
  have t4 := copy_iter_bytes M3 ((src + (0 + 4 + 4 + 4)) % 2 ^ 32) ((dest + (0 + 4 + 4 + 4)) % 2 ^ 32)
    (translate_address src + 12) (translate_address dest + 12) hs12 hd12 (by omega) (by omega)
  rw [hM4] at t4
  have hkeep1 : ∀ z, z < 16 →
      M1 (translate_address src + z) = mem (translate_address src + z) :=
    fun z hz => t1.2 _ (by omega)
  have hkeep2 : ∀ z, z < 16 →
      M2 (translate_address src + z) = mem (translate_address src + z) :=
    fun z hz => (t2.2 _ (by omega)).trans (hkeep1 z hz)
  have hkeep3 : ∀ z, z < 16 →
      M3 (translate_address src + z) = mem (translate_address src + z) :=
    fun z hz => (t3.2 _ (by omega)).trans (hkeep2 z hz)
  refine ⟨fun j hj => ?_, fun x hx => ?_⟩
  · rcases (by omega : j < 4 ∨ (4 ≤ j ∧ j < 8) ∨ (8 ≤ j ∧ j < 12) ∨ (12 ≤ j ∧ j < 16))
      with h | h | h | h
    · rw [t4.2 (translate_address dest + j) (by omega),
        t3.2 (translate_address dest + j) (by omega),
        t2.2 (translate_address dest + j) (by omega)]
      exact t1.1 j (by omega)
    · rw [t4.2 (translate_address dest + j) (by omega),
        t3.2 (translate_address dest + j) (by omega)]
      have e := t2.1 (j - 4) (by omega)
      rw [show translate_address dest + 4 + (j - 4) = translate_address dest + j from by omega,
        show translate_address src + 4 + (j - 4) = translate_address src + j from by omega] at e
      rw [e, hkeep1 j (by omega)]
    · rw [t4.2 (translate_address dest + j) (by omega)]
      have e := t3.1 (j - 8) (by omega)
      rw [show translate_address dest + 8 + (j - 8) = translate_address dest + j from by omega,
        show translate_address src + 8 + (j - 8) = translate_address src + j from by omega] at e
      rw [e, hkeep2 j (by omega)]
    · have e := t4.1 (j - 12) (by omega)
      rw [show translate_address dest + 12 + (j - 12) = translate_address dest + j from by omega,
        show translate_address src + 12 + (j - 12) = translate_address src + j from by omega] at e
      rw [e, hkeep3 j (by omega)]
  · rw [t4.2 x (by omega), t3.2 x (by omega), t2.2 x (by omega), t1.2 x (by omega)]

/-- Characterization of the mailbox poll on a pending block-copy command
(code 0x03 or 0x04, both with the same body). -/
theorem handle_starlet_block_copy_eq {F : Type} (sm : StarletMemory) (audio : AudioState)
    (s : CPUState F) (mem : Mem)
    (hcmd : sm.command = 0x03 ∨ sm.command = 0x04) :
    handle_starlet_command sm audio s mem =
      { sm := { sm with response := 0x00, status := 0x01, command := 0 }
        audio := audio
        cpu := trigger_interrupt 1 s
        mem := starlet_copy mem (read_word mem sm.param_addr)
          (read_word mem ((sm.param_addr + 4) % 2 ^ 32))
          (read_word mem ((sm.param_addr + 8) % 2 ^ 32)) 0
        triggered := [1]
        handled := true } := by
  rcases hcmd with h | h <;>
    simp only [handle_starlet_command, h] <;> norm_num

/-- C4: a poll of a pending Starlet block-copy command (code 0x03 or 0x04)
whose parameter block gives byte count 16 copies exactly the 16 bytes at
the source address to the destination address (given contiguous, in-bounds
and disjoint translated windows), touches no other byte of memory, sets
the response to the success code 0, sets the status to completed (1),
resets the command word to 0, and invokes the coprocessor interrupt
trigger (type 1) exactly once. -/
theorem starlet_block_copy_16 {F : Type} (sm : StarletMemory) (audio : AudioState)
    (s : CPUState F) (mem : Mem) (src dest : Nat)
    (hcmd : sm.command = 0x03 ∨ sm.command = 0x04)
    (hsrc : read_word mem sm.param_addr = src)
    (hdest : read_word mem ((sm.param_addr + 4) % 2 ^ 32) = dest)
    (hsize : read_word mem ((sm.param_addr + 8) % 2 ^ 32) = 16)
    (hs4 : translate_address ((src + 4) % 2 ^ 32) = translate_address src + 4)
    (hs8 : translate_address ((src + 8) % 2 ^ 32) = translate_address src + 8)
    (hs12 : translate_address ((src + 12) % 2 ^ 32) = translate_address src + 12)
    (hd4 : translate_address ((dest + 4) % 2 ^ 32) = translate_address dest + 4)
    (hd8 : translate_address ((dest + 8) % 2 ^ 32) = translate_address dest + 8)
    (hd12 : translate_address ((dest + 12) % 2 ^ 32) = translate_address dest + 12)
    (hsin : translate_address src + 15 < MEMORY_SIZE)
    (hdin : translate_address dest + 15 < MEMORY_SIZE)
    (hdisj : translate_address src + 16 ≤ translate_address dest ∨
      translate_address dest + 16 ≤ translate_address src) :
    (∀ j, j < 16 →
      (handle_starlet_command sm audio s mem).mem (translate_address dest + j) =
        mem (translate_address src + j) % 256) ∧
    (∀ x, x < translate_address dest ∨ translate_address dest + 16 ≤ x →
      (handle_starlet_command sm audio s mem).mem x = mem x) ∧
    (handle_starlet_command sm audio s mem).sm.response = 0x00 ∧
    (handle_starlet_command sm audio s mem).sm.status = 0x01 ∧
    (handle_starlet_command sm audio s mem).sm.command = 0 ∧
    (handle_starlet_command sm audio s mem).triggered = [1] ∧
    (handle_starlet_command sm audio s mem).cpu = trigger_interrupt 1 s := by
  have hH := handle_starlet_block_copy_eq sm audio s mem hcmd
  rw [hsrc, hdest, hsize] at hH
  have hb := starlet_copy16_bytes mem src dest
    (hsrc ▸ read_word_lt mem sm.param_addr)
    (hdest ▸ read_word_lt mem ((sm.param_addr + 4) % 2 ^ 32))
    hs4 hs8 hs12 hd4 hd8 hd12 hsin hdin hdisj
  rw [hH]
  exact ⟨hb.1, hb.2, rfl, rfl, rfl, rfl, rfl⟩

/-- The Starlet block-copy scenario boot image: the parameter block at
physical offset 0x100 (virtual 0x80000100) holds source 0x80001000,
destination 0x80002000 and byte count 16; the 16 source bytes at physical
0x1000..0x100F hold 0xA0..0xAF. -/
def starletScenarioMem : Mem := fun x =>
  if x = 0x100 then 0x80
  else if x = 0x102 then 0x10
  else if x = 0x104 then 0x80
  else if x = 0x106 then 0x20
  else if x = 0x10B then 0x10
  else if 0x1000 ≤ x ∧ x < 0x1010 then 0xA0 + (x - 0x1000)
  else 0

/-- A pending Starlet read-data command with its parameter block at
virtual address 0x80000100. -/
def starletScenarioSM : StarletMemory :=
  { command := 0x03, response := 0, param_addr := 0x80000100, result_addr := 0, status := 0 }

/-- An uninitialized audio card, untouched by the block-copy commands. -/
def starletScenarioAudio : AudioState :=
  { buffer := fun _ => 0, buffer_size := 0, initialized := false }

theorem starlet_block_copy_16_witness :
    starletScenarioSM.command = 0x03 ∧
    read_word starletScenarioMem ((starletScenarioSM.param_addr + 8) % 2 ^ 32) = 16 ∧
    (handle_starlet_command starletScenarioSM starletScenarioAudio zeroStateAtEntry
        starletScenarioMem).mem (translate_address 0x80002000 + 5) =
      starletScenarioMem (translate_address 0x80001000 + 5) % 256 ∧
    (handle_starlet_command starletScenarioSM starletScenarioAudio zeroStateAtEntry
        starletScenarioMem).sm.command = 0 ∧
    (handle_starlet_command starletScenarioSM starletScenarioAudio zeroStateAtEntry
        starletScenarioMem).triggered = [1] := by
  have h := starlet_block_copy_16 starletScenarioSM starletScenarioAudio zeroStateAtEntry
    starletScenarioMem 0x80001000 0x80002000 (Or.inl (by decide)) (by decide) (by decide)
    (by decide) (by decide) (by decide) (by decide) (by decide) (by decide) (by decide)
    (by decide) (by decide) (Or.inl (by decide))
  exact ⟨by decide, by decide, h.1 5 (by decide), h.2.2.2.2.1, h.2.2.2.2.2.1⟩

/-- C3: evaluation of the branch executor at a negative displacement.
The word `0x4BFFFFFC` has primary opcode 0x12, link and absolute bits
clear, and displacement field `0x3FFFFFC`, which as a word-aligned
sign-extended 26-bit displacement encodes `d = -4`.  The claimed target
from pc `0x1000` is `0x1000 - 4 = 0xFFC`, but the executor computes
`static_cast<int32_t>(raw_offset << 2) >> 2`, which is the identity on the
26-bit field (the shifted value never reaches the sign bit), so it lands
at `0x1000 + 0x3FFFFFC = 0x04000FFC`: the displacement is not
sign-extended, contradicting the executor's own `Sign-extend` comment. -/
theorem branch_displacement_not_sign_extended :
    (execute_instruction unitOps 0x4BFFFFFC { zeroState with pc := 0x1000 }
        (fun _ => 0)).1.pc = 0x04000FFC ∧
    (0x04000FFC : Nat) ≠ (0x1000 + (2 ^ 32 - 4)) % 2 ^ 32 := by
  constructor
  · decide
  · decide

end Emuwiiv1


namespace Wiiemu

/-- C2: under the fatal unknown-opcode policy (`wiiemu.cpp`), one
fetch-decode-execute step whose fetched word carries an opcode other than
ADD (0x18), Branch (0x12) or PS_ADD (0x3C) sets `running = false` and
leaves everything else — pc, all integer, floating and special registers,
both flags and the whole memory buffer — unchanged. -/
theorem unknown_opcode_fatal_halts_only {F : Type} (ops : Emuwiiv1.FOps F)
    (mem : Emuwiiv1.Mem) (s : CPUState F)
    (h18 : read_word mem s.pc / 2 ^ 26 % 64 ≠ 0x18)
    (h12 : read_word mem s.pc / 2 ^ 26 % 64 ≠ 0x12)
    (h3C : read_word mem s.pc / 2 ^ 26 % 64 ≠ 0x3C) :
    (step ops mem s).1.running = false ∧
    (step ops mem s).1.pc = s.pc ∧
    (step ops mem s).1.gpr = s.gpr ∧
    (step ops mem s).1.fpr = s.fpr ∧
    (step ops mem s).1.spr = s.spr ∧
    (step ops mem s).1.interrupts_enabled = s.interrupts_enabled ∧
    (step ops mem s).1.kernel_mode = s.kernel_mode ∧
    (step ops mem s).2 = mem := by
  have hstep : step ops mem s = ({ s with running := false }, mem) := by
    simp only [step, fetch_instruction, execute_instruction]
    rw [if_neg h18, if_neg h12, if_neg h3C]
  rw [hstep]
  exact ⟨rfl, rfl, rfl, rfl, rfl, rfl, rfl, rfl⟩

/-- The fresh `wiiemu.cpp` CPU state (pc 0, all registers zero, running,
interrupts disabled, user mode), with the trivial lane type. -/
def freshState : CPUState Unit :=
  { pc := 0
    gpr := fun _ => 0
    fpr := fun _ => ((), ())
    spr := fun _ => 0
    running := true
    interrupts_enabled := false
    kernel_mode := false }

theorem unknown_opcode_fatal_halts_only_witness :
    read_word (fun _ => 0xFF) freshState.pc / 2 ^ 26 % 64 ≠ 0x18 ∧
    (step Emuwiiv1.unitOps (fun _ => 0xFF) freshState).1.running = false ∧
    (step Emuwiiv1.unitOps (fun _ => 0xFF) freshState).1.pc = freshState.pc := by
  have h := unknown_opcode_fatal_halts_only Emuwiiv1.unitOps (fun _ => 0xFF) freshState
    (by decide) (by decide) (by decide)
  exact ⟨by decide, h.1, h.2.1⟩

end Wiiemu
